import Mathlib

/-!
Verification of the Markdown document-transformation pipeline in
`scripts/generate-docs.mjs`.

The script parses each Markdown file into an mdast tree, runs four
transform passes (link rewriting, example-block wrapping, admonition
conversion, symbol accessibility), serializes the tree, extracts a title
from the serialized text and prepends a front-matter preamble.

Nodes of the tree are untyped JavaScript objects carrying a `type` tag and
optional `value`, `url` and `children` properties.  The embedding below
mirrors that: a single constructor with optional fields.  Visitor
callbacks that can hit a JavaScript `TypeError` (reading a property of
`undefined`) are embedded as `Option`-returning functions, `none` being
the thrown error.
-/

set_option maxRecDepth 8000
set_option linter.unusedVariables false

namespace GenerateDocs

/-- An mdast node: `type` tag plus optional `value`, `url` and `children`
properties, exactly the fields the script reads.  A `none` children field
is the JavaScript `undefined` (leaf nodes), distinct from an empty
array. -/
inductive Node : Type where
  | mk (type : String) (value : Option String) (url : Option String)
      (children : Option (List Node))

mutual

def decEqNode : (a b : Node) → Decidable (a = b)
  | .mk t1 v1 u1 c1, .mk t2 v2 u2 c2 =>
    match decEq t1 t2 with
    | isFalse h => isFalse (by intro he; cases he; exact h rfl)
    | isTrue h1 =>
      match decEq v1 v2 with
      | isFalse h => isFalse (by intro he; cases he; exact h rfl)
      | isTrue h2 =>
        match decEq u1 u2 with
        | isFalse h => isFalse (by intro he; cases he; exact h rfl)
        | isTrue h3 =>
          match decEqOptChildren c1 c2 with
          | isFalse h => isFalse (by intro he; cases he; exact h rfl)
          | isTrue h4 => isTrue (by rw [h1, h2, h3, h4])

def decEqOptChildren : (a b : Option (List Node)) → Decidable (a = b)
  | none, none => isTrue rfl
  | none, some _ => isFalse (by intro h; cases h)
  | some _, none => isFalse (by intro h; cases h)
  | some l1, some l2 =>
    match decEqNodeList l1 l2 with
    | isTrue h => isTrue (by rw [h])
    | isFalse h => isFalse (by intro he; cases he; exact h rfl)

def decEqNodeList : (a b : List Node) → Decidable (a = b)
  | [], [] => isTrue rfl
  | [], _ :: _ => isFalse (by intro h; cases h)
  | _ :: _, [] => isFalse (by intro h; cases h)
  | x :: xs, y :: ys =>
    match decEqNode x y with
    | isFalse h => isFalse (by intro he; injection he with h1 h2; exact h h1)
    | isTrue h1 =>
      match decEqNodeList xs ys with
      | isTrue h2 => isTrue (by rw [h1, h2])
      | isFalse h => isFalse (by intro he; injection he with h3 h4; exact h h4)

end

instance : DecidableEq Node := decEqNode

/-- The `type` tag of a node. -/
def Node.type : Node → String
  | .mk t _ _ _ => t

/-- The `value` property of a node (`none` is JavaScript `undefined`). -/
def Node.value? : Node → Option String
  | .mk _ v _ _ => v

/-- The `url` property of a node (`none` is JavaScript `undefined`). -/
def Node.url? : Node → Option String
  | .mk _ _ u _ => u

/-- The `children` property of a node (`none` is JavaScript
`undefined`). -/
def Node.children? : Node → Option (List Node)
  | .mk _ _ _ cs => cs

/-- Replace the `children` property of a node, as the assignment
`parent.children = [...]` does. -/
def Node.withChildren : Node → List Node → Node
  | .mk t v u _, cs => .mk t v u (some cs)

/-- A `text` mdast node. -/
def textNode (v : String) : Node := .mk "text" (some v) none none

/-- An `html` mdast node. -/
def htmlNode (v : String) : Node := .mk "html" (some v) none none

/-- A fenced-code mdast node (a leaf that carries a value). -/
def codeNode (v : String) : Node := .mk "code" (some v) none none

/-- A `paragraph` mdast node. -/
def paragraphNode (cs : List Node) : Node := .mk "paragraph" none none (some cs)

/-- A `heading` mdast node. -/
def headingNode (cs : List Node) : Node := .mk "heading" none none (some cs)

/-- An `emphasis` mdast node. -/
def emphasisNode (cs : List Node) : Node := .mk "emphasis" none none (some cs)

/-- A `strong` mdast node. -/
def strongNode (cs : List Node) : Node := .mk "strong" none none (some cs)

/-- A `blockquote` mdast node. -/
def blockquoteNode (cs : List Node) : Node := .mk "blockquote" none none (some cs)

/-- A `link` mdast node with its `url` property. -/
def linkNode (u : String) (cs : List Node) : Node := .mk "link" none (some u) (some cs)

/-- JavaScript `String.prototype.trimEnd`: remove trailing whitespace. -/
def jsTrimEnd (s : String) : String :=
  ⟨(s.data.reverse.dropWhile Char.isWhitespace).reverse⟩

/-- JavaScript `String.prototype.trimStart`: remove leading whitespace. -/
def jsTrimStart (s : String) : String :=
  ⟨s.data.dropWhile Char.isWhitespace⟩

/-- Interpolation of a possibly-undefined JavaScript string into a
template literal: `undefined` prints as the text `undefined`. -/
def jsTemplate (o : Option String) : String := o.getD "undefined"

/-- JavaScript `Array.prototype.splice(i, 0, ...xs)`: insert `xs` at
position `i` (clamped to the array length). -/
def spliceInsert (l : List α) (i : Nat) (xs : List α) : List α :=
  l.take i ++ xs ++ l.drop i

/-- JavaScript `Array.prototype.splice(i, 1)`: delete the element at
position `i`. -/
def spliceDelete (l : List α) (i : Nat) : List α :=
  l.take i ++ l.drop (i + 1)

/-! ### The `wrapProblemExample` pass -/

/-- The `isTrigger` predicate of `wrapProblemExample`: a paragraph whose
first and third inline children concatenate (after trimming trailing
whitespace of the first) to one of the two fixed trigger sentences.  The
destructuring `[first, , last]` in the source picks `children[0]` and
`children[2]`. -/
def isTrigger (node : Node) : Bool :=
  if node.type = "paragraph" then
    match node.children? with
    | none => false
    | some cs =>
      let text := jsTrimEnd (((cs[0]?).bind Node.value?).getD "") ++
        (((cs[2]?).bind Node.value?).getD "")
      text == "The following patterns are considered problems:" ||
        text == "The following pattern is considered a problem:"
  else false

/-- The classification `node.children[1]?.children[0]?.value === "not"`
computed by the `wrapProblemExample` visitor on the trigger paragraph
itself.  `none` is a JavaScript `TypeError`: reading `children` of the
trigger when it is `undefined`, or indexing `children` of the second
child when that property is `undefined` (the `?.` guards sit only after
`children[1]` and after `children[0]`). -/
def wrapIsValid (node : Node) : Option Bool :=
  match node.children? with
  | none => none
  | some cs =>
    match cs[1]? with
    | none => some false
    | some second =>
      match second.children? with
      | none => none
      | some grand => some (((grand[0]?).bind Node.value?) == some "not")

/-- The opening wrapper marker inserted by `wrapProblemExample`. -/
def wrapperStartNode (isValid : Bool) : Node :=
  htmlNode ("<div class=\"" ++ (if isValid then "valid-pattern" else "invalid-pattern") ++ "\">")

/-- The closing wrapper marker inserted by `wrapProblemExample`. -/
def wrapperEndNode : Node := htmlNode "</div>"

/-- The boundary test of the `while` loop in `wrapProblemExample`:
another trigger paragraph or any heading ends the wrapped region. -/
def isBoundary (child : Node) : Bool :=
  isTrigger child || child.type == "heading"

/-- The `while` loop of `wrapProblemExample`: starting at index `i`, scan
the given suffix of the children array for the first boundary node and
return its index (or the array length when none is found). -/
def findEndAux : List Node → Nat → Nat
  | [], i => i
  | child :: rest, i => if isBoundary child then i else findEndAux rest (i + 1)

/-- The splicing part of the `wrapProblemExample` visitor, after the
classification succeeded: insert the opening marker right after the
trigger at `index`, scan for the next boundary, insert the closing marker
there (or push it at the end of the children array). -/
def wrapBody (isValid : Bool) (index : Nat) (children : List Node) : List Node :=
  let inserted := spliceInsert children (index + 1) [wrapperStartNode isValid]
  let childrenLength := inserted.length
  let endIndex := findEndAux (inserted.drop (index + 1)) (index + 1)
  if endIndex = childrenLength then inserted ++ [wrapperEndNode]
  else spliceInsert inserted endIndex [wrapperEndNode]

/-- One invocation of the `wrapProblemExample` visitor on a trigger
paragraph `node` sitting at position `index` of its parent children
array.  `none` is a JavaScript `TypeError` raised by the
classification. -/
def wrapVisitor (node : Node) (index : Nat) (children : List Node) : Option (List Node) :=
  (wrapIsValid node).map fun isValid => wrapBody isValid index children

/-- The first boundary position in a suffix of the children array. -/
def boundaryIdx (l : List Node) : Nat := l.findIdx isBoundary

/-- Modelled from the claim wording for C1, not from the source: the
valid/invalid classification read off the second inline child of the
paragraph immediately following the trigger (the trigger sits at
`index`). -/
def isValidPerClaim (children : List Node) (index : Nat) : Bool :=
  match (children[index + 1]?).bind Node.children? with
  | none => false
  | some cs =>
    match cs[1]? with
    | none => false
    | some second =>
      match second.children? with
      | none => false
      | some grand => ((grand[0]?).bind Node.value?) == some "not"

/-- Modelled from the claim wording for C7, not from the source: trigger
detection by concatenating the first and last children of the paragraph
(instead of the first and third as the source destructuring does). -/
def isTriggerClaim (node : Node) : Bool :=
  if node.type = "paragraph" then
    match node.children? with
    | none => false
    | some cs =>
      let text := jsTrimEnd (((cs[0]?).bind Node.value?).getD "") ++
        (((cs.getLast?).bind Node.value?).getD "")
      text == "The following patterns are considered problems:" ||
        text == "The following pattern is considered a problem:"
  else false

/-! ### The `convertToAdmonitions` pass -/

/-- The fixed `gfmToAdmonitions` lookup table. -/
def gfmToAdmonitions (gfm : String) : Option String :=
  if gfm = "Note" then some "note"
  else if gfm = "Warning" then some "caution"
  else none

/-- The `restChildren.forEach` step: trim leading whitespace of the first
remaining child, and only when its `value` property is truthy. -/
def trimFirstChild : List Node → List Node
  | [] => []
  | c :: rest =>
    (match c with
      | .mk t (some v) u ch =>
        if v = "" then .mk t (some v) u ch else .mk t (some (jsTrimStart v)) u ch
      | other => other) :: rest

/-- One invocation of the `convertToAdmonitions` visitor on a blockquote
at position `index` of its parent children array.  `some children`
unchanged is the pass-through (`return` of the callback); `none` is a
JavaScript `TypeError` (destructuring or reading `type` of
`undefined`). -/
def convertVisitor (blockquote : Node) (index : Nat) (children : List Node) :
    Option (List Node) :=
  match blockquote.children? with
  | none => none
  | some bcs =>
    match bcs[0]? with
    | none => none
    | some paragraph =>
      if paragraph.type = "paragraph" then
        match paragraph.children? with
        | none => none
        | some pcs =>
          match pcs[0]? with
          | none => none
          | some strongChild =>
            if strongChild.type = "strong" then
              match strongChild.children? with
              | none => none
              | some scs =>
                match (scs[0]?).bind Node.value? with
                | none => some children
                | some gfmType =>
                  match gfmToAdmonitions gfmType with
                  | none => some children
                  | some admType =>
                    some (spliceDelete
                      (spliceInsert children (index + 1)
                        [paragraphNode [textNode (":::" ++ admType ++ " " ++ gfmType)],
                          paragraphNode (trimFirstChild (pcs.drop 1)),
                          paragraphNode [textNode ":::"]])
                      index)
            else some children
      else some children

/-! ### The `makeRuleSymbolsAccessbile` pass -/

/-- The fixed `symbols` lookup table, applied to a possibly-undefined
key as `symbols.get(symbol)` is. -/
def symbolLabel (symbol : Option String) : Option String :=
  match symbol with
  | some "✅" => some "Standard"
  | some "🔧" => some "Autofixable"
  | _ => none

/-- The traversal test of `makeRuleSymbolsAccessbile`: the node matches
one of the prop objects built from the symbol table, that is its type is
`text` and its whole value is exactly one of the two symbols. -/
def symbolTest (node : Node) : Bool :=
  (node.type == "text" && node.value? == some "✅") ||
    (node.type == "text" && node.value? == some "🔧")

/-- One invocation of the `makeRuleSymbolsAccessbile` visitor: assigns
`parent.children = [span]` where the span carries the label as its
`title` attribute and the symbol as its displayed content. -/
def symbolsVisitor (node parent : Node) : Node :=
  let symbol := node.value?
  let name := symbolLabel symbol
  parent.withChildren
    [htmlNode ("<span title=\"" ++ jsTemplate name ++ "\">" ++ jsTemplate symbol ++ "</span>")]

/-! ### The `rewriteLink` pass -/

mutual

/-- The `rewriteLink` pass: visit every node of the tree and replace the
`url` property of each `link` node by `rewriter(url)`. -/
def rewriteLinkNode (rewriter : String → String) : Node → Node
  | .mk t v u none => .mk t v (if t == "link" then u.map rewriter else u) none
  | .mk t v u (some cs) =>
    .mk t v (if t == "link" then u.map rewriter else u) (some (rewriteLinkList rewriter cs))

def rewriteLinkList (rewriter : String → String) : List Node → List Node
  | [] => []
  | n :: rest => rewriteLinkNode rewriter n :: rewriteLinkList rewriter rest

end

mutual

/-- All `url` values of `link` nodes of a tree, in traversal order. -/
def linkUrls : Node → List String
  | .mk t _ u none => if t == "link" then u.toList else []
  | .mk t _ u (some cs) => (if t == "link" then u.toList else []) ++ linkUrlsList cs

def linkUrlsList : List Node → List String
  | [] => []
  | n :: rest => linkUrls n ++ linkUrlsList rest

end

mutual

/-- Erase the `url` property of every `link` node: the part of a tree
that the `rewriteLink` pass may not change. -/
def stripLinkUrls : Node → Node
  | .mk t v u none => .mk t v (if t == "link" then none else u) none
  | .mk t v u (some cs) =>
    .mk t v (if t == "link" then none else u) (some (stripLinkUrlsList cs))

def stripLinkUrlsList : List Node → List Node
  | [] => []
  | n :: rest => stripLinkUrls n :: stripLinkUrlsList rest

end

/-! ### Title extraction and front matter of `processMarkdown` -/

/-- The tail of the regular expression `\n?# ([^\n]+)\n` at one position:
require the characters `#` and a space, then a nonempty greedy run of
non-newline characters followed by a newline; return the captured run. -/
def matchHash : List Char → Option (List Char)
  | '#' :: ' ' :: rest =>
    let grp := rest.takeWhile (fun c => c != '\n')
    if grp.isEmpty then none
    else if rest.dropWhile (fun c => c != '\n') = [] then none
    else some grp
  | _ => none

/-- Leftmost match of `\n?# ([^\n]+)\n`: at each position try the body of
the pattern, consuming one optional leading newline first. -/
def scanTitle : List Char → Option (List Char)
  | [] => none
  | c :: rest =>
    match if c = '\n' then matchHash rest else matchHash (c :: rest) with
    | some grp => some grp
    | none => scanTitle rest

/-- The `content.match` call of `processMarkdown` with the pattern
`\n?# ([^\n]+)\n`: the first
captured group, or `none` when the regular expression does not match
anywhere (in which case the script throws reading `[1]` of `null` and the
file fails). -/
def extractTitle (s : String) : Option String :=
  (scanTitle s.data).map fun l => ⟨l⟩

/-- Whether a line beginning here is an h1 heading: `#`, a space, and a
nonempty heading text. -/
def isH1At (l : List Char) : Bool :=
  match l with
  | '#' :: ' ' :: c :: _ => c != '\n'
  | _ => false

/-- Scan for an h1 heading line, tracking whether the current position is
at the start of a line. -/
def hasH1From : List Char → Bool → Bool
  | [], _ => false
  | c :: rest, lineStart =>
    (lineStart && isH1At (c :: rest)) || hasH1From rest (c == '\n')

/-- The document contains a top-level (h1) heading: some line starts with
a `# ` marker followed by nonempty text. -/
def hasH1 (s : String) : Bool := hasH1From s.data true

/-- A trigger paragraph made of a single text run. -/
def trigPlain : Node := paragraphNode [textNode "The following patterns are considered problems:"]

/-- A trigger paragraph with an emphasised `not` as its second child, the
shape produced by `The following patterns are *not* considered
problems:`. -/
def trigNot : Node := paragraphNode
  [textNode "The following patterns are ", emphasisNode [textNode "not"],
    textNode " considered problems:"]

/-- A four-child paragraph whose first and third children concatenate to
a trigger sentence while its last child adds extra text. -/
def para4 : Node := paragraphNode
  [textNode "The following pattern is ", emphasisNode [textNode "not"],
    textNode " considered a problem:", textNode "x"]

/-- A GFM note blockquote. -/
def noteBq : Node := blockquoteNode
  [paragraphNode [strongNode [textNode "Note"], textNode " be careful."]]

/-- A genuine trigger paragraph (the missing third child reads as the
empty string) whose second child is a childless html node, so the
classification `node.children[1]?.children[0]?.value` throws a
`TypeError`: the `?.` guard sits only after `children[1]`, and indexing
the `undefined` children property of the second child throws. -/
def trigCrash : Node := paragraphNode
  [textNode "The following patterns are considered problems:", htmlNode "<br>"]

/-! ### List splice lemmas -/

theorem getElem?_take_append_cons (l : List α) (n : Nat) (a : α) (t : List α)
    (h : n ≤ l.length) : (l.take n ++ a :: t)[n]? = some a := by
  rw [List.getElem?_append_right (by simp [Nat.min_eq_left h])]
  simp [Nat.min_eq_left h]

theorem splice_insert_delete (l : List α) (i : Nat) (xs : List α) (h : i < l.length) :
    spliceDelete (spliceInsert l (i + 1) xs) i = l.take i ++ xs ++ l.drop (i + 1) := by
  have hA : (l.take (i + 1)).length = i + 1 := List.length_take_of_le (by omega)
  simp only [spliceInsert, spliceDelete, List.append_assoc]
  rw [List.take_append_of_le_length (by rw [hA]; omega), List.drop_left' hA, List.take_take,
    Nat.min_eq_left (by omega)]

theorem wrap_splice_parts (children : List Node) (index : Nat) (x y : Node) (k : Nat)
    (hidx : index < children.length) (hk : k ≤ (children.drop (index + 1)).length) :
    spliceInsert (spliceInsert children (index + 1) [x]) (index + 2 + k) [y] =
      children.take (index + 1) ++ x ::
        ((children.drop (index + 1)).take k ++ y :: (children.drop (index + 1)).drop k) := by
  have hA : (children.take (index + 1)).length = index + 1 := List.length_take_of_le (by omega)
  have hsplit : spliceInsert children (index + 1) [x] =
      children.take (index + 1) ++ x :: children.drop (index + 1) := by
    simp [spliceInsert]
  rw [hsplit]
  simp only [spliceInsert, List.append_assoc]
  have harith : index + 2 + k = (children.take (index + 1)).length + (1 + k) := by
    rw [hA]; omega
  rw [harith, List.take_append, List.drop_append]
  rw [Nat.add_comm 1 k, List.take_succ_cons, List.drop_succ_cons]
  simp

theorem spliceInsert_at_length (l xs : List α) : spliceInsert l l.length xs = l ++ xs := by
  simp [spliceInsert]

theorem findEndAux_eq (l : List Node) (i : Nat) :
    findEndAux l i = i + l.findIdx isBoundary := by
  induction l generalizing i with
  | nil => simp [findEndAux]
  | cons c rest ih =>
    cases hb : isBoundary c with
    | true => simp [findEndAux, List.findIdx_cons, hb]
    | false =>
      simp [findEndAux, List.findIdx_cons, hb, ih]
      omega

theorem isBoundary_wrapperStart (b : Bool) : isBoundary (wrapperStartNode b) = false := by
  cases b <;> rfl

/-- Characterization of one `wrapProblemExample` visitor call as two
single-node splices: the opening marker goes right after the trigger and
the closing marker at `index + 2 + k` where `k` is the offset of the
first boundary among the original following siblings. -/
theorem wrapVisitor_eq_splice (node : Node) (index : Nat) (children : List Node) (b : Bool)
    (hv : wrapIsValid node = some b) (hidx : index < children.length) :
    wrapVisitor node index children =
      some (spliceInsert (spliceInsert children (index + 1) [wrapperStartNode b])
        (index + 2 + boundaryIdx (children.drop (index + 1))) [wrapperEndNode]) := by
  have hA : (children.take (index + 1)).length = index + 1 := List.length_take_of_le (by omega)
  have hsplit : spliceInsert children (index + 1) [wrapperStartNode b] =
      children.take (index + 1) ++ wrapperStartNode b :: children.drop (index + 1) := by
    simp [spliceInsert]
  have hdrop : (spliceInsert children (index + 1) [wrapperStartNode b]).drop (index + 1) =
      wrapperStartNode b :: children.drop (index + 1) := by
    rw [hsplit]
    exact List.drop_left' hA
  have hfind : findEndAux (wrapperStartNode b :: children.drop (index + 1)) (index + 1) =
      index + 2 + boundaryIdx (children.drop (index + 1)) := by
    simp [findEndAux, isBoundary_wrapperStart b, findEndAux_eq, boundaryIdx]
    try omega
  have hlen : (spliceInsert children (index + 1) [wrapperStartNode b]).length =
      index + 2 + (children.drop (index + 1)).length := by
    rw [hsplit]
    simp [hA]
    omega
  have hk : boundaryIdx (children.drop (index + 1)) ≤ (children.drop (index + 1)).length :=
    List.findIdx_le_length isBoundary
  simp only [wrapVisitor, hv, Option.map_some']
  congr 1
  simp only [wrapBody, hdrop, hfind, hlen]
  by_cases hkt : boundaryIdx (children.drop (index + 1)) = (children.drop (index + 1)).length
  · rw [if_pos (by omega), hkt, ← hlen, spliceInsert_at_length]
  · rw [if_neg (by omega)]

/-- Characterization of one `wrapProblemExample` visitor call in
take/drop form: trigger, opening marker, the following siblings up to the
first boundary, closing marker, then the boundary and the rest. -/
theorem wrapVisitor_eq (node : Node) (index : Nat) (children : List Node) (b : Bool)
    (hv : wrapIsValid node = some b) (hidx : index < children.length) :
    wrapVisitor node index children =
      some (children.take (index + 1) ++ wrapperStartNode b ::
        ((children.drop (index + 1)).take (boundaryIdx (children.drop (index + 1))) ++
          wrapperEndNode ::
            (children.drop (index + 1)).drop (boundaryIdx (children.drop (index + 1))))) := by
  rw [wrapVisitor_eq_splice node index children b hv hidx,
    wrap_splice_parts children index (wrapperStartNode b) wrapperEndNode
      (boundaryIdx (children.drop (index + 1))) hidx (List.findIdx_le_length isBoundary)]

/-! ### Claims about the `wrapProblemExample` pass -/

/-- C6 counterexample: `trigCrash` is a genuine trigger paragraph, here
followed immediately by a heading, yet the pass inserts no markers at
all: the classification throws a `TypeError` (the `none` result) before
any splice happens, so the claimed unconditional marker insertion fails
for this trigger. -/
theorem wrap_markers_crash_counterexample :
    isTrigger trigCrash = true ∧
    wrapVisitor trigCrash 0 [trigCrash, headingNode [textNode "x"]] = none := by
  refine ⟨by decide, by decide⟩

/-- C6 amended: for every trigger paragraph at `index` on which the
classification succeeds (`wrapIsValid` returns a Boolean instead of
throwing, i.e. the trigger second child, when present, has a children
property), the pass inserts the opening wrapper marker immediately after
the trigger and the closing marker immediately before the first
subsequent sibling that is another trigger paragraph or any heading
(`boundaryIdx` of the following siblings); when no such sibling exists
`boundaryIdx` is the length of the suffix, so the closing marker is
appended at the end of the parent children.  In particular a trigger
followed immediately by a heading yields the two markers directly
adjacent (`boundaryIdx = 0`).  A trigger whose second child lacks a
children property instead raises a `TypeError` and no marker is
inserted. -/
theorem wrap_markers_span_to_next_boundary (node : Node) (index : Nat) (children : List Node)
    (b : Bool) (hv : wrapIsValid node = some b) (hidx : index < children.length) :
    wrapVisitor node index children =
      some (children.take (index + 1) ++ wrapperStartNode b ::
        ((children.drop (index + 1)).take (boundaryIdx (children.drop (index + 1))) ++
          wrapperEndNode ::
            (children.drop (index + 1)).drop (boundaryIdx (children.drop (index + 1))))) :=
  wrapVisitor_eq node index children b hv hidx

/-- C6 witness: a trigger followed immediately by a heading produces an
open marker and a close marker directly adjacent to each other. -/
theorem wrap_markers_span_to_next_boundary_witness :
    wrapVisitor trigPlain 0 [trigPlain, headingNode [textNode "x"]] =
      some [trigPlain, wrapperStartNode false, wrapperEndNode, headingNode [textNode "x"]] := by
  have h := wrap_markers_span_to_next_boundary trigPlain 0
    [trigPlain, headingNode [textNode "x"]] false (by decide) (by decide)
  exact h.trans (by decide)

/-- C10 counterexample: on the genuine trigger `trigCrash` the visitor
inserts zero html markers rather than exactly two: the classification
throws a `TypeError` (the `none` result) before either splice, so the
claimed unconditional two-marker invariant fails for this visited
trigger. -/
theorem wrap_balance_crash_counterexample :
    isTrigger trigCrash = true ∧ wrapVisitor trigCrash 0 [trigCrash] = none := by
  refine ⟨by decide, by decide⟩

/-- C10 amended: for every trigger paragraph visited on which the
classification succeeds (`wrapIsValid` returns a Boolean instead of
throwing), the pass performs exactly two single-node insertions of html
markers into the parent children list: the opening marker at the
position immediately after the trigger and the closing one at some
position at or after it, so the markers are balanced, the trigger keeps
its position and the opening marker is directly adjacent to it.  A
trigger whose second child lacks a children property instead raises a
`TypeError` and nothing is inserted. -/
theorem wrap_markers_balanced (node : Node) (index : Nat) (children : List Node) (b : Bool)
    (hv : wrapIsValid node = some b) (hidx : index < children.length) :
    ∃ j res, index + 2 ≤ j ∧ j ≤ children.length + 1 ∧
      wrapVisitor node index children = some res ∧
      res = spliceInsert (spliceInsert children (index + 1) [wrapperStartNode b]) j
        [wrapperEndNode] ∧
      res.length = children.length + 2 ∧
      res[index]? = children[index]? ∧
      res[index + 1]? = some (wrapperStartNode b) := by
  have hk : boundaryIdx (children.drop (index + 1)) ≤ (children.drop (index + 1)).length :=
    List.findIdx_le_length isBoundary
  have hdl : (children.drop (index + 1)).length = children.length - (index + 1) :=
    List.length_drop (index + 1) children
  refine ⟨index + 2 + boundaryIdx (children.drop (index + 1)), _,
    by omega, by omega, wrapVisitor_eq_splice node index children b hv hidx, rfl, ?_, ?_, ?_⟩
  · rw [wrap_splice_parts children index (wrapperStartNode b) wrapperEndNode
      (boundaryIdx (children.drop (index + 1))) hidx hk]
    simp
    omega
  · rw [wrap_splice_parts children index (wrapperStartNode b) wrapperEndNode
      (boundaryIdx (children.drop (index + 1))) hidx hk]
    rw [List.getElem?_append_left (by simp; omega), List.getElem?_take_of_lt (by omega)]
  · rw [wrap_splice_parts children index (wrapperStartNode b) wrapperEndNode
      (boundaryIdx (children.drop (index + 1))) hidx hk]
    exact getElem?_take_append_cons children (index + 1) (wrapperStartNode b) _ (by omega)

/-- C10 witness at a concrete input. -/
theorem wrap_markers_balanced_witness :
    ∃ j res, 0 + 2 ≤ j ∧ j ≤ [trigNot, codeNode "a"].length + 1 ∧
      wrapVisitor trigNot 0 [trigNot, codeNode "a"] = some res ∧
      res = spliceInsert (spliceInsert [trigNot, codeNode "a"] (0 + 1)
        [wrapperStartNode true]) j [wrapperEndNode] ∧
      res.length = [trigNot, codeNode "a"].length + 2 ∧
      res[0]? = [trigNot, codeNode "a"][0]? ∧
      res[0 + 1]? = some (wrapperStartNode true) :=
  wrap_markers_balanced trigNot 0 [trigNot, codeNode "a"] true (by decide) (by decide)

/-- C1 counterexample: a trigger paragraph carrying an emphasised `not`
as its own second child, followed by a fenced-code node.  The claimed
rule (inspect the second inline child of the paragraph immediately
following the trigger) classifies this as invalid, yet the pass emits the
`valid-pattern` wrapper: the code reads the trigger paragraph itself,
not its successor. -/
theorem wrap_class_counterexample :
    wrapVisitor trigNot 0 [trigNot, codeNode "a"] =
      some [trigNot, wrapperStartNode true, codeNode "a", wrapperEndNode] ∧
    isValidPerClaim [trigNot, codeNode "a"] 0 = false ∧
    wrapperStartNode true = htmlNode "<div class=\"valid-pattern\">" := by
  refine ⟨by decide, by decide, rfl⟩

/-- C1 amended: the valid/invalid classification of the wrapper opened
for a trigger is decided by inspecting the second inline child of the
trigger paragraph itself: when the trigger has no second child the
wrapper class is `invalid-pattern`; when the second child has a children
property the class is `valid-pattern` exactly if the first nested child
has value `not`, and `invalid-pattern` otherwise; and when the second
child exists but has no children property the visitor throws a
`TypeError` and opens no wrapper at all. -/
theorem wrap_class_from_trigger_own_child (node : Node) (index : Nat) (children : List Node)
    (cs : List Node) (hcs : node.children? = some cs) (hidx : index < children.length) :
    (cs[1]? = none →
      ∃ res, wrapVisitor node index children = some res ∧
        res[index + 1]? = some (wrapperStartNode false)) ∧
    (∀ second grand, cs[1]? = some second → second.children? = some grand →
      ∃ res, wrapVisitor node index children = some res ∧
        res[index + 1]? = some
          (wrapperStartNode (((grand[0]?).bind Node.value?) == some "not"))) ∧
    (∀ second, cs[1]? = some second → second.children? = none →
      wrapVisitor node index children = none) := by
  refine ⟨fun h1 => ?_, fun second grand h1 h2 => ?_, fun second h1 h2 => ?_⟩
  · have hv : wrapIsValid node = some false := by
      simp [wrapIsValid, hcs, h1]
    refine ⟨_, wrapVisitor_eq node index children false hv hidx, ?_⟩
    exact getElem?_take_append_cons children (index + 1) (wrapperStartNode false) _ (by omega)
  · have hv : wrapIsValid node = some (((grand[0]?).bind Node.value?) == some "not") := by
      simp [wrapIsValid, hcs, h1, h2]
    refine ⟨_, wrapVisitor_eq node index children _ hv hidx, ?_⟩
    exact getElem?_take_append_cons children (index + 1) (wrapperStartNode _) _ (by omega)
  · have hv : wrapIsValid node = none := by
      simp [wrapIsValid, hcs, h1, h2]
    simp [wrapVisitor, hv]

/-- C1 amended witness at the concrete counterexample input. -/
theorem wrap_class_from_trigger_own_child_witness :
    ∃ res, wrapVisitor trigNot 0 [trigNot, codeNode "a"] = some res ∧
      res[0 + 1]? = some (wrapperStartNode true) := by
  have h := (wrap_class_from_trigger_own_child trigNot 0 [trigNot, codeNode "a"]
    [textNode "The following patterns are ", emphasisNode [textNode "not"],
      textNode " considered problems:"] (by decide) (by decide)).2.1
    (emphasisNode [textNode "not"]) [textNode "not"] (by decide) (by decide)
  obtain ⟨res, h1, h2⟩ := h
  exact ⟨res, h1, h2.trans (by decide)⟩

/-- C7 counterexample: a paragraph with four children whose first and
third children concatenate to a trigger sentence while the last child
adds extra text.  The source destructuring `[first, , last]` reads the
third child, so the pass recognises a trigger; the claimed rule (first
and last children) does not. -/
theorem isTrigger_counterexample :
    isTrigger para4 = true ∧ isTriggerClaim para4 = false := by
  refine ⟨by decide, by decide⟩

/-- C7 amended: a paragraph is recognised as a trigger if and only if the
concatenation of its first and THIRD inline children values (trailing
whitespace of the first trimmed, a missing child or value reading as the
empty string) equals one of the two fixed sentences; in particular an
emphasis-wrapped `not` sitting between them does not block the match. -/
theorem isTrigger_characterization (node : Node) :
    isTrigger node = true ↔
      (node.type = "paragraph" ∧ ∃ cs, node.children? = some cs ∧
        (jsTrimEnd (((cs[0]?).bind Node.value?).getD "") ++
            (((cs[2]?).bind Node.value?).getD "") =
            "The following patterns are considered problems:" ∨
          jsTrimEnd (((cs[0]?).bind Node.value?).getD "") ++
            (((cs[2]?).bind Node.value?).getD "") =
            "The following pattern is considered a problem:")) := by
  unfold isTrigger
  by_cases ht : node.type = "paragraph"
  · rw [if_pos ht]
    cases hcs : node.children? with
    | none => simp [ht]
    | some cs =>
      simp only [ht, true_and]
      constructor
      · intro h
        refine ⟨cs, rfl, ?_⟩
        rcases Bool.or_eq_true_iff.mp h with h1 | h1
        · exact Or.inl (eq_of_beq h1)
        · exact Or.inr (eq_of_beq h1)
      · rintro ⟨cs2, hcs2, h⟩
        cases hcs2
        rcases h with h1 | h1
        · exact Bool.or_eq_true_iff.mpr (Or.inl (beq_of_eq h1))
        · exact Bool.or_eq_true_iff.mpr (Or.inr (beq_of_eq h1))
  · rw [if_neg ht]
    simp [ht]

/-! ### Claims about the `convertToAdmonitions` pass -/

/-- C4: a blockquote whose first child is a paragraph whose first inline
child is a strong run with text `Note` or `Warning` is replaced, at the
same index of its parent, by exactly three sibling paragraphs: the
`:::kind Label` opener, a content paragraph holding the paragraph
children after the strong run with leading whitespace trimmed from its
first child only, and the `:::` closer. -/
theorem convert_replaces_blockquote_with_three_paragraphs (children : List Node) (index : Nat)
    (bq p strongChild : Node) (bcs pcs scs : List Node) (gfm adm : String)
    (hbq : children[index]? = some bq)
    (hbcs : bq.children? = some bcs) (hp : bcs[0]? = some p)
    (hptype : p.type = "paragraph") (hpcs : p.children? = some pcs)
    (hs : pcs[0]? = some strongChild) (hstype : strongChild.type = "strong")
    (hscs : strongChild.children? = some scs)
    (hgfm : (scs[0]?).bind Node.value? = some gfm)
    (hmap : (gfm = "Note" ∧ adm = "note") ∨ (gfm = "Warning" ∧ adm = "caution")) :
    convertVisitor bq index children =
      some (children.take index ++
        [paragraphNode [textNode (":::" ++ adm ++ " " ++ gfm)],
          paragraphNode (trimFirstChild (pcs.drop 1)),
          paragraphNode [textNode ":::"]] ++ children.drop (index + 1)) := by
  have hidx : index < children.length := (List.getElem?_eq_some_iff.mp hbq).1
  have hsplice := splice_insert_delete children index
    [paragraphNode [textNode (":::" ++ adm ++ " " ++ gfm)],
      paragraphNode (trimFirstChild (pcs.drop 1)),
      paragraphNode [textNode ":::"]] hidx
  rcases hmap with ⟨hg, ha⟩ | ⟨hg, ha⟩ <;> subst hg <;> subst ha <;>
    (simp only [convertVisitor, hbcs, hp]
     rw [if_pos hptype]
     simp only [hpcs, hs]
     rw [if_pos hstype]
     simp only [hscs, hgfm]
     exact congrArg some hsplice)

/-- C4 witness: a concrete `Note` blockquote is replaced in place by the
three paragraphs, with the leading space of the content trimmed. -/
theorem convert_replaces_blockquote_with_three_paragraphs_witness :
    convertVisitor noteBq 0 [noteBq] =
      some [paragraphNode [textNode ":::note Note"],
        paragraphNode [textNode "be careful."],
        paragraphNode [textNode ":::"]] := by
  have h := convert_replaces_blockquote_with_three_paragraphs [noteBq] 0 noteBq
    (paragraphNode [strongNode [textNode "Note"], textNode " be careful."])
    (strongNode [textNode "Note"])
    [paragraphNode [strongNode [textNode "Note"], textNode " be careful."]]
    [strongNode [textNode "Note"], textNode " be careful."]
    [textNode "Note"] "Note" "note"
    (by decide) (by decide) (by decide) (by decide) (by decide) (by decide) (by decide)
    (by decide) (by decide) (Or.inl ⟨rfl, rfl⟩)
  exact h.trans (by decide)

/-- C5 counterexample: a blockquote with an empty children array does not
match the admonition shape, yet the visitor does not pass it through
unchanged: destructuring yields `undefined` and reading `.type` of it
throws a `TypeError` (modelled as `none`), contradicting the claimed
never-crash pass-through. -/
theorem convert_empty_blockquote_crashes :
    convertVisitor (blockquoteNode []) 0 [blockquoteNode []] = none ∧
      none ≠ some [blockquoteNode []] := by
  refine ⟨by decide, by decide⟩

/-- C5 amended: the admonition pass leaves the tree unchanged for every
non-matching blockquote, provided the blockquote has a first child and,
when that child is a paragraph, the paragraph has a first child too: a
non-paragraph first child, a non-strong first inline child, and a strong
run whose text is unmapped (or whose first child is missing or has no
value) are all passed through.  Blockquotes with empty or missing child
lists instead raise a `TypeError` (the `none` result), so the claimed
unconditional never-crash behaviour does not hold. -/
theorem convert_passthrough (bq : Node) (index : Nat) (children : List Node)
    (bcs : List Node) (p : Node) (hbcs : bq.children? = some bcs) (hp : bcs[0]? = some p) :
    (p.type ≠ "paragraph" → convertVisitor bq index children = some children) ∧
    (∀ pcs strongChild, p.children? = some pcs → pcs[0]? = some strongChild →
      (strongChild.type ≠ "strong" → convertVisitor bq index children = some children) ∧
      (∀ scs, strongChild.children? = some scs →
        ((scs[0]?).bind Node.value? = none → convertVisitor bq index children = some children) ∧
        (∀ gv, (scs[0]?).bind Node.value? = some gv → gv ≠ "Note" → gv ≠ "Warning" →
          convertVisitor bq index children = some children))) := by
  refine ⟨fun hnp => ?_, fun pcs strongChild hpcs hs => ⟨fun hns => ?_, fun scs hscs => ⟨fun hnone => ?_, fun gv hgv hgn hgw => ?_⟩⟩⟩
  · simp [convertVisitor, hbcs, hp, hnp]
  · simp [convertVisitor, hbcs, hp, hpcs, hs, hns]
  · by_cases hptype : p.type = "paragraph"
    · by_cases hstype : strongChild.type = "strong"
      · simp [convertVisitor, hbcs, hp, hptype, hpcs, hs, hstype, hscs, hnone]
      · simp [convertVisitor, hbcs, hp, hptype, hpcs, hs, hstype]
    · simp [convertVisitor, hbcs, hp, hptype]
  · by_cases hptype : p.type = "paragraph"
    · by_cases hstype : strongChild.type = "strong"
      · simp [convertVisitor, hbcs, hp, hptype, hpcs, hs, hstype, hscs, hgv,
        gfmToAdmonitions, hgn, hgw]
      · simp [convertVisitor, hbcs, hp, hptype, hpcs, hs, hstype]
    · simp [convertVisitor, hbcs, hp, hptype]

/-- C5 amended witness: a `Tip` blockquote (unmapped label) is passed
through unchanged. -/
theorem convert_passthrough_witness :
    convertVisitor (blockquoteNode [paragraphNode [strongNode [textNode "Tip"], textNode " hi"]])
      0 [blockquoteNode [paragraphNode [strongNode [textNode "Tip"], textNode " hi"]]] =
      some [blockquoteNode [paragraphNode [strongNode [textNode "Tip"], textNode " hi"]]] := by
  have h := ((convert_passthrough
    (blockquoteNode [paragraphNode [strongNode [textNode "Tip"], textNode " hi"]]) 0
    [blockquoteNode [paragraphNode [strongNode [textNode "Tip"], textNode " hi"]]]
    [paragraphNode [strongNode [textNode "Tip"], textNode " hi"]]
    (paragraphNode [strongNode [textNode "Tip"], textNode " hi"])
    (by decide) (by decide)).2
    [strongNode [textNode "Tip"], textNode " hi"] (strongNode [textNode "Tip"])
    (by decide) (by decide)).2 [textNode "Tip"] (by decide)
  exact h.2 "Tip" (by decide) (by decide) (by decide)

/-! ### Claims about the `makeRuleSymbolsAccessbile` pass -/

/-- C2 counterexample: the visitor invoked on a matched symbol text node
whose parent has a second child assigns a one-element children array to
the parent, so the sibling `" rule"` text node is dropped instead of
being preserved as the claim requires. -/
theorem symbols_visitor_counterexample :
    symbolsVisitor (textNode "✅") (paragraphNode [textNode "✅", textNode " rule"]) =
      paragraphNode [htmlNode "<span title=\"Standard\">✅</span>"] ∧
    paragraphNode [htmlNode "<span title=\"Standard\">✅</span>"] ≠
      paragraphNode [htmlNode "<span title=\"Standard\">✅</span>", textNode " rule"] := by
  refine ⟨by decide, by decide⟩

/-- C2 amended: for every matched text node (whole value exactly a mapped
symbol) the visitor replaces the ENTIRE children array of the parent by
the single markup span whose `title` attribute is the label and whose
displayed content is the original symbol — siblings of the matched node
are not preserved; and the traversal test matches a text node if and only
if its whole value is exactly one of the two symbols, so a value that
merely contains a symbol plus other text is left unmatched. -/
theorem symbols_visitor_replaces_children (node parent : Node) (v w : String)
    (hval : node.value? = some v) (hmatch : symbolTest node = true) :
    (∃ label, symbolLabel (some v) = some label ∧
      symbolsVisitor node parent = parent.withChildren
        [htmlNode ("<span title=\"" ++ label ++ "\">" ++ v ++ "</span>")]) ∧
    (symbolTest (textNode w) = true ↔ (w = "✅" ∨ w = "🔧")) := by
  constructor
  · have hv : v = "✅" ∨ v = "🔧" := by
      simp only [symbolTest, hval, Bool.or_eq_true, Bool.and_eq_true] at hmatch
      rcases hmatch with ⟨_, h⟩ | ⟨_, h⟩
      · exact Or.inl (Option.some.inj (eq_of_beq h))
      · exact Or.inr (Option.some.inj (eq_of_beq h))
    have hdef : symbolsVisitor node parent = parent.withChildren
        [htmlNode ("<span title=\"" ++ jsTemplate (symbolLabel node.value?) ++ "\">" ++
          jsTemplate node.value? ++ "</span>")] := rfl
    rcases hv with hv | hv <;> subst hv
    · exact ⟨"Standard", rfl, by rw [hdef, hval]; rfl⟩
    · exact ⟨"Autofixable", rfl, by rw [hdef, hval]; rfl⟩
  · simp only [symbolTest, textNode, Node.type, Node.value?]
    constructor
    · intro h
      rcases Bool.or_eq_true_iff.mp h with h1 | h1
      · exact Or.inl (Option.some.inj (eq_of_beq (Bool.and_eq_true_iff.mp h1).2))
      · exact Or.inr (Option.some.inj (eq_of_beq (Bool.and_eq_true_iff.mp h1).2))
    · rintro (h | h) <;> subst h <;> decide

/-- C2 amended witness: instantiated at the exact symbol `✅` and at the
embedded-symbol value `✅ rule`, which the test rejects. -/
theorem symbols_visitor_replaces_children_witness :
    (∃ label, symbolLabel (some "✅") = some label ∧
      symbolsVisitor (textNode "✅") (paragraphNode [textNode "✅"]) =
        (paragraphNode [textNode "✅"]).withChildren
          [htmlNode ("<span title=\"" ++ label ++ "\">" ++ "✅" ++ "</span>")]) ∧
    (symbolTest (textNode "✅ rule") = true ↔ ("✅ rule" = "✅" ∨ "✅ rule" = "🔧")) :=
  symbols_visitor_replaces_children (textNode "✅") (paragraphNode [textNode "✅"])
    "✅" "✅ rule" (by decide) (by decide)

/-! ### Claims about the `processMarkdown` metadata -/

mutual

theorem linkUrls_rewriteNode (r : String → String) :
    ∀ n : Node, linkUrls (rewriteLinkNode r n) = (linkUrls n).map r
  | .mk t v u none => by
    simp only [rewriteLinkNode, linkUrls, List.map_append]
    by_cases h : (t == "link") = true <;> cases u <;> simp [h]
  | .mk t v u (some cs) => by
    simp only [rewriteLinkNode, linkUrls, List.map_append]
    rw [linkUrls_rewriteList r cs]
    by_cases h : (t == "link") = true <;> cases u <;> simp [h]

theorem linkUrls_rewriteList (r : String → String) :
    ∀ l : List Node, linkUrlsList (rewriteLinkList r l) = (linkUrlsList l).map r
  | [] => by simp [rewriteLinkList, linkUrlsList]
  | n :: rest => by
    simp only [rewriteLinkList, linkUrlsList, List.map_append]
    rw [linkUrls_rewriteNode r n, linkUrls_rewriteList r rest]

end

mutual

theorem stripLinkUrls_rewriteNode (r : String → String) :
    ∀ n : Node, stripLinkUrls (rewriteLinkNode r n) = stripLinkUrls n
  | .mk t v u none => by
    simp only [rewriteLinkNode, stripLinkUrls]
    by_cases h : (t == "link") = true <;> simp [h]
  | .mk t v u (some cs) => by
    simp only [rewriteLinkNode, stripLinkUrls]
    rw [stripLinkUrls_rewriteList r cs]
    by_cases h : (t == "link") = true <;> simp [h]

theorem stripLinkUrls_rewriteList (r : String → String) :
    ∀ l : List Node, stripLinkUrlsList (rewriteLinkList r l) = stripLinkUrlsList l
  | [] => by simp [rewriteLinkList, stripLinkUrlsList]
  | n :: rest => by
    simp only [rewriteLinkList, stripLinkUrlsList]
    rw [stripLinkUrls_rewriteNode r n, stripLinkUrls_rewriteList r rest]

end

mutual

theorem rewriteLink_idemNode (r : String → String) (hr : ∀ s, r (r s) = r s) :
    ∀ n : Node, rewriteLinkNode r (rewriteLinkNode r n) = rewriteLinkNode r n
  | .mk t v u none => by
    simp only [rewriteLinkNode]
    by_cases h : (t == "link") = true <;> cases u <;> simp [h, hr]
  | .mk t v u (some cs) => by
    simp only [rewriteLinkNode]
    rw [rewriteLink_idemList r hr cs]
    by_cases h : (t == "link") = true <;> cases u <;> simp [h, hr]

theorem rewriteLink_idemList (r : String → String) (hr : ∀ s, r (r s) = r s) :
    ∀ l : List Node, rewriteLinkList r (rewriteLinkList r l) = rewriteLinkList r l
  | [] => by simp [rewriteLinkList]
  | n :: rest => by
    simp only [rewriteLinkList]
    rw [rewriteLink_idemNode r hr n, rewriteLink_idemList r hr rest]

end

/-- C8: after the link-rewriting pass every link url of the tree is the
rewriter applied to the original url (in traversal order), everything of
the tree other than the link urls is unchanged, and the pass applied
twice equals the pass applied once whenever the rewriter is
idempotent. -/
theorem rewriteLink_spec (r : String → String) (t : Node) :
    linkUrls (rewriteLinkNode r t) = (linkUrls t).map r ∧
    stripLinkUrls (rewriteLinkNode r t) = stripLinkUrls t ∧
    ((∀ s, r (r s) = r s) → rewriteLinkNode r (rewriteLinkNode r t) = rewriteLinkNode r t) :=
  ⟨linkUrls_rewriteNode r t, stripLinkUrls_rewriteNode r t,
    fun hr => rewriteLink_idemNode r hr t⟩

/-- C8 witness: instantiated at a constant (hence idempotent) rewriter
and a small tree with two links. -/
theorem rewriteLink_spec_witness :
    linkUrls (rewriteLinkNode (fun _ => "x") (linkNode "a" [textNode "t", linkNode "b" []])) =
      (linkUrls (linkNode "a" [textNode "t", linkNode "b" []])).map (fun _ => "x") ∧
    stripLinkUrls (rewriteLinkNode (fun _ => "x") (linkNode "a" [textNode "t", linkNode "b" []])) =
      stripLinkUrls (linkNode "a" [textNode "t", linkNode "b" []]) ∧
    rewriteLinkNode (fun _ => "x")
        (rewriteLinkNode (fun _ => "x") (linkNode "a" [textNode "t", linkNode "b" []])) =
      rewriteLinkNode (fun _ => "x") (linkNode "a" [textNode "t", linkNode "b" []]) :=
  ⟨(rewriteLink_spec (fun _ => "x") (linkNode "a" [textNode "t", linkNode "b" []])).1,
    (rewriteLink_spec (fun _ => "x") (linkNode "a" [textNode "t", linkNode "b" []])).2.1,
    (rewriteLink_spec (fun _ => "x") (linkNode "a" [textNode "t", linkNode "b" []])).2.2
      fun _ => rfl⟩

/-! ### Claims about the title extraction -/

theorem matchHash_isSome (c2 : Char) (rest2 : List Char) (hc2 : (c2 != '\n') = true)
    (hmem : '\n' ∈ c2 :: rest2) :
    (matchHash ('#' :: ' ' :: c2 :: rest2)).isSome = true := by
  have hne : (c2 :: rest2).dropWhile (fun c => c != '\n') ≠ [] := by
    intro he
    have h0 := (List.dropWhile_eq_nil_iff.mp he) '\n' hmem
    simp at h0
  have hne2 : List.dropWhile (fun c => c != '\n') rest2 ≠ [] := by
    have heq : List.dropWhile (fun c => c != '\n') (c2 :: rest2) =
        List.dropWhile (fun c => c != '\n') rest2 := by
      simp [List.dropWhile_cons, hc2]
    rw [heq] at hne
    exact hne
  have htake : List.takeWhile (fun c => c != '\n') (c2 :: rest2) =
      c2 :: List.takeWhile (fun c => c != '\n') rest2 := by
    simp [List.takeWhile_cons, hc2]
  simp [matchHash, htake, hc2, hne2]

theorem scanTitle_isSome_of_h1 (l : List Char) :
    ∀ ls : Bool, l.getLast? = some '\n' → hasH1From l ls = true →
      (scanTitle l).isSome = true := by
  induction l with
  | nil =>
    intro ls _ h
    simp [hasH1From] at h
  | cons c rest ih =>
    intro ls hlast h
    simp only [hasH1From, Bool.or_eq_true, Bool.and_eq_true] at h
    rcases h with ⟨hls, hh1⟩ | hrest
    · unfold isH1At at hh1
      split at hh1
      next c2 rest2 heq =>
        obtain ⟨hc, hrest2⟩ : c = '#' ∧ rest = ' ' :: c2 :: rest2 := by
          injection heq with h1 h2
          exact ⟨h1, h2⟩
        subst hc
        subst hrest2
        have hmem : '\n' ∈ c2 :: rest2 := by
          have h0 := List.mem_of_getLast?_eq_some hlast
          simp only [List.mem_cons] at h0 ⊢
          rcases h0 with h0 | h0 | h0 | h0
          · exact absurd h0 (by decide)
          · exact absurd h0 (by decide)
          · exact Or.inl h0
          · exact Or.inr h0
        have hm := matchHash_isSome c2 rest2 hh1 hmem
        simp only [scanTitle, if_neg (by decide : ¬ ('#' : Char) = '\n')]
        cases hmh : matchHash ('#' :: ' ' :: c2 :: rest2) with
        | none => rw [hmh] at hm; simp at hm
        | some g => simp
      next =>
        simp at hh1
    · have hne : rest ≠ [] := by
        intro he
        subst he
        simp [hasH1From] at hrest
      cases rest with
      | nil => exact absurd rfl hne
      | cons a as =>
        rw [List.getLast?_cons_cons] at hlast
        have := ih (c == '\n') hlast hrest
        simp only [scanTitle]
        cases hm : (if c = '\n' then matchHash (a :: as) else matchHash (c :: a :: as)) with
        | none => simpa using this
        | some g => simp

/-- C3 counterexample: the serialized content `## Foo` followed by a
newline contains no h1 heading, yet processing does not fail: the
regular expression matches the `# Foo` tail of the h2 marker mid-line
(its optional leading newline is not anchored), and the extracted title
is `Foo`.  So processing a file does not fail if and only if an h1 is
absent. -/
theorem extractTitle_counterexample :
    extractTitle "## Foo\n" = some "Foo" ∧ hasH1 "## Foo\n" = false := by
  refine ⟨by decide, by decide⟩

/-- C3 amended: processing fails (the `match` is `null` and reading
`[1]` throws) if and only if the regular expression finds no match in
the serialized content; the presence of an h1 heading in a
newline-terminated content guarantees a match, hence success, but a
match — hence success — is also possible without any h1. -/
theorem extractTitle_succeeds_on_h1 (s : String) (hnl : s.data.getLast? = some '\n') :
    (extractTitle s = none ↔ scanTitle s.data = none) ∧
    (hasH1 s = true → (extractTitle s).isSome = true) := by
  constructor
  · simp [extractTitle]
  · intro hh
    have := scanTitle_isSome_of_h1 s.data true hnl hh
    unfold extractTitle
    cases hs : scanTitle s.data with
    | none => rw [hs] at this; simp at this
    | some g => simp

/-- C3 amended witness at a newline-terminated content with an h1. -/
theorem extractTitle_succeeds_on_h1_witness :
    (extractTitle "# Foo\n" = none ↔ scanTitle "# Foo\n".data = none) ∧
    (hasH1 "# Foo\n" = true → (extractTitle "# Foo\n").isSome = true) :=
  extractTitle_succeeds_on_h1 "# Foo\n" (by decide)

end GenerateDocs
